import Mathlib

/-!
Verification of the `trailing_cell` library (`src/lib.rs`).

The library pairs a broadcast bus of messages `M` with readers that each own a
local value `T` and lazily apply received messages to it.  The bus itself comes
from the external `bus` crate (not part of this repository), so its behaviour
(`Bus::new`, `broadcast`, `try_broadcast`, `add_rx`, `BusReader::try_recv`) is
modelled from the specification; the reader- and writer-level operations are
translated directly from `src/lib.rs`.

Execution is modelled sequentially: `&mut self` methods become functions from
the old state to the new state (paired with the Rust return value where there
is one).
-/

namespace TrailingCell

/-- Translation of the trait `TakesMessage<M>` from `src/lib.rs`:
`fn take_message(&mut self, t: M)` becomes a function from the old `T` and the
message to the new `T`. -/
class TakesMessage (T : Type _) (M : Type _) where
  take_message : T → M → T

export TakesMessage (take_message)

/-- Modelled from the spec: the error raised by channel construction with an
invalid parameter (§7 "ConfigError — invalid construction parameter (e.g.,
zero capacity)").  The constructing code (`bus::Bus::new`) is not in `src/`. -/
inductive ConfigError where
  | zeroCapacity
deriving DecidableEq

/-- Modelled from the spec (§3 "Channel", §4.1): the state of the shared
broadcast channel (`bus::Bus<M>`, not in `src/`): a fixed capacity, the
global ordered log of every message broadcast so far (oldest first; positions
in this list are the strictly increasing sequence numbers), and the positions
of the currently registered read cursors. -/
structure Bus (M : Type _) where
  capacity : Nat
  log : List M
  cursors : List Nat
deriving DecidableEq

/-- Modelled from the spec (§4.1 `construct`): `bus::Bus::new(capacity)` is not
in `src/`; per the spec, construction fails with `ConfigError` when the
capacity is zero and otherwise yields an empty channel with that capacity. -/
def Bus.new (M : Type _) (capacity : Nat) : Except ConfigError (Bus M) :=
  if capacity = 0 then .error ConfigError.zeroCapacity
  else .ok { capacity := capacity, log := [], cursors := [] }

/-- How far a cursor at position `c` lags behind the write tail. -/
def Bus.lag (b : Bus M) (c : Nat) : Nat :=
  b.log.length - c

/-- Modelled from the spec (§4.1): the buffer is full exactly when some
currently registered cursor lags by at least the capacity ("the buffer is full
with respect to the farthest-behind currently registered cursor"); with no
cursors registered it is never full ("this degenerates to never blocking"). -/
def Bus.isFull (b : Bus M) : Bool :=
  b.cursors.any fun c => b.capacity ≤ b.lag c

/-- Modelled from the spec (§4.1 `publish_blocking`): `bus::Bus::broadcast`
is not in `src/`; a completed blocking broadcast appends the message at the
next sequence slot.  The blocking wait itself is a real-time phenomenon with
no effect on the resulting state and is outside this sequential model. -/
def Bus.broadcast (b : Bus M) (m : M) : Bus M :=
  { b with log := b.log ++ [m] }

/-- Modelled from the spec (§4.1 `publish_nonblocking`):
`bus::Bus::try_broadcast` is not in `src/`; when the buffer is full the
message is handed back unconsumed and the channel is untouched, otherwise it
is broadcast as in the blocking path.  Mirrors the Rust return type
`Result<(), M>`. -/
def Bus.tryBroadcast (b : Bus M) (m : M) : Bus M × Except M Unit :=
  if b.isFull then (b, .error m) else (b.broadcast m, .ok ())

/-- Modelled from the spec (§4.1 `register_reader`): `bus::Bus::add_rx` is not
in `src/`; a new cursor is positioned at the current write tail ("so it will
only observe future messages") and registered.  Returns the new channel state
and the new cursor's position. -/
def Bus.addRx (b : Bus M) : Bus M × Nat :=
  ({ b with cursors := b.cursors ++ [b.log.length] }, b.log.length)

/-- Translation of `TcWriter<M>` from `src/lib.rs`: a handle to the shared
bus.  The `Arc<Mutex<..>>` wrapper only provides shared ownership and mutual
exclusion; in this sequential model the writer carries the bus state. -/
structure TcWriter (M : Type _) where
  producer : Bus M
deriving DecidableEq

/-- Translation of `TcWriter::new` from `src/lib.rs`:
`TcWriter { producer: Arc::new(Mutex::new(Bus::new(capacity))) }`.
The possible construction failure comes from the modelled `Bus.new`. -/
def TcWriter.new (M : Type _) (capacity : Nat) : Except ConfigError (TcWriter M) :=
  (Bus.new M capacity).map TcWriter.mk

/-- Translation of `TcWriter::apply_change` from `src/lib.rs`:
`self.producer.lock().unwrap().broadcast(m)`. -/
def TcWriter.apply_change (w : TcWriter M) (m : M) : TcWriter M :=
  ⟨w.producer.broadcast m⟩

/-- Translation of `TcWriter::try_apply_change` from `src/lib.rs`: forwards to
`try_broadcast` and maps `Err(m)` to `Err(m)`, success to `Ok(())`. -/
def TcWriter.try_apply_change (w : TcWriter M) (m : M) : TcWriter M × Except M Unit :=
  (⟨(w.producer.tryBroadcast m).1⟩, (w.producer.tryBroadcast m).2)

/-- Translation of `TcWriter::add_reader` from `src/lib.rs`: registers a new
cursor (`add_rx`) on the shared bus.  Returns the new writer state and the
fresh cursor's position; the reader pairing that cursor with the initial `T`
is built by `readerAt` below once an observation point is fixed. -/
def TcWriter.add_reader (w : TcWriter M) : TcWriter M × Nat :=
  (⟨(w.producer.addRx).1⟩, (w.producer.addRx).2)

/-- Translation of `TcReader<T, M>` from `src/lib.rs`: the local value
(`data: Cell<T>`; the `Cell` is only an interior-mutability device) together
with the reader's view of its bus cursor.  Modelled from the spec (§3
"Cursor", §4.1 `drain_from`): at any observation point the cursor is
equivalent to the ordered list of messages broadcast at or after its position
and not yet consumed, which is what `consumer` holds. -/
structure TcReader (T : Type _) (M : Type _) where
  data : T
  consumer : List M
deriving DecidableEq

/-- The reader produced by `add_reader(init)` as seen at an observation point
where the bus state is `b`: its pending messages are those broadcast at or
after its cursor position `c`. -/
def readerAt (b : Bus M) (c : Nat) (init : T) : TcReader T M :=
  { data := init, consumer := b.log.drop c }

/-- The loop body of `TcReader::update` from `src/lib.rs`, with the two
locals the Rust loop mutates (`self.data` and the cursor's pending messages)
passed explicitly:
`while let Ok(msg) = self.consumer.try_recv() { ... take_message(msg) }`. -/
def TcReader.updateFrom [TakesMessage T M] (data : T) : List M → TcReader T M
  | [] => ⟨data, []⟩
  | msg :: rest => TcReader.updateFrom (take_message data msg) rest

/-- Translation of `TcReader::update` from `src/lib.rs`: drain the cursor with
the `while let` loop above.  `BusReader::try_recv` (bus crate, not in `src/`)
is modelled from the spec (§4.1 `drain_from`): it yields the next pending
message in broadcast order, or nothing when the cursor has caught up.  The
Rust function returns `()`. -/
def TcReader.update [TakesMessage T M] (r : TcReader T M) : TcReader T M :=
  TcReader.updateFrom r.data r.consumer

/-- The Rust signature of `update` is `fn update(&mut self)`: its return value
is the unit value `()`.  This definition makes that return value explicit next
to the state transition. -/
def TcReader.update_ret [TakesMessage T M] (r : TcReader T M) : TcReader T M × Unit :=
  (r.update, ())

/-- Translation of `TcReader::update_limited` from `src/lib.rs`: the
`for _ in 0..limit` loop that receives and applies at most `limit` pending
messages, breaking early when `try_recv` finds none, and returns the number
received and applied. -/
def TcReader.update_limited [TakesMessage T M] : TcReader T M → Nat → TcReader T M × Nat
  | r, 0 => (r, 0)
  | ⟨data, []⟩, _ + 1 => (⟨data, []⟩, 0)
  | ⟨data, msg :: rest⟩, limit + 1 =>
    let p := TcReader.update_limited ⟨take_message data msg, rest⟩ limit
    (p.1, p.2 + 1)

/-- Translation of `TcReader::get_mut_fresh` from `src/lib.rs`:
`self.update(); self.data.get_mut()` — the new reader state together with the
value the returned `&mut T` points at. -/
def TcReader.get_mut_fresh [TakesMessage T M] (r : TcReader T M) : TcReader T M × T :=
  (r.update, r.update.data)

/-- Translation of `TcReader::get_mut_stale` from `src/lib.rs`:
`self.data.get_mut()` — the (unchanged) reader state together with the value
the returned `&mut T` points at. -/
def TcReader.get_mut_stale (r : TcReader T M) : TcReader T M × T :=
  (r, r.data)

/-- Translation of `TcReader::into_inner_stale` from `src/lib.rs`:
`self.data.into_inner()`. -/
def TcReader.into_inner_stale (r : TcReader T M) : T :=
  r.data

/-- Translation of `TcReader::into_inner_fresh` from `src/lib.rs`:
`self.update(); self.data.into_inner()`. -/
def TcReader.into_inner_fresh [TakesMessage T M] (r : TcReader T M) : T :=
  r.update.data

/-- Repeated stale access: `get_mut_stale` called `n` times in a row, each call
continuing from the reader state the previous call left behind. -/
def TcReader.iterate_stale (r : TcReader T M) : Nat → TcReader T M
  | 0 => r
  | n + 1 => TcReader.iterate_stale (r.get_mut_stale).1 n

/-- A sequence of `update_limited` calls with the given limits, each continuing
from the reader state the previous call left behind (counts discarded). -/
def TcReader.update_limited_seq [TakesMessage T M] (r : TcReader T M) (ns : List Nat) :
    TcReader T M :=
  ns.foldl (fun r n => (r.update_limited n).1) r

/-- The message type used by the repository's own tests (`Change` in
`src/lib.rs` tests): push a value or pop, interpreted against `Vec<u32>`. -/
inductive Change where
  | push (x : Nat)
  | pop
deriving DecidableEq

/-- The `TakesMessage<Change> for Vec<u32>` instance from the tests in
`src/lib.rs`: `Push(x)` appends `x`, `Pop` removes the last element. -/
instance : TakesMessage (List Nat) Change where
  take_message v m :=
    match m with
    | .push x => v ++ [x]
    | .pop => v.dropLast

/-! ## Basic lemmas about the reader operations -/

/-- `update` applies every pending message, in order, as a left fold, and
leaves nothing pending. -/
theorem TcReader.update_eq [TakesMessage T M] (data : T) (ms : List M) :
    TcReader.update ⟨data, ms⟩ = ⟨ms.foldl take_message data, []⟩ := by
  induction ms generalizing data with
  | nil => rfl
  | cons m rest ih =>
    simpa [TcReader.update, TcReader.updateFrom] using ih (take_message data m)

/-- `update_limited` applies exactly the first `min limit (pending count)`
messages as a left fold, leaves the rest pending, and returns that count. -/
theorem TcReader.update_limited_eq [TakesMessage T M] (data : T) (ms : List M) (limit : Nat) :
    TcReader.update_limited ⟨data, ms⟩ limit =
      (⟨(ms.take limit).foldl take_message data, ms.drop limit⟩, min limit ms.length) := by
  induction ms generalizing data limit with
  | nil => cases limit <;> simp [TcReader.update_limited]
  | cons m rest ih =>
    cases limit with
    | zero => simp [TcReader.update_limited]
    | succ n =>
      simp only [TcReader.update_limited, ih (take_message data m) n, List.take_succ_cons,
        List.foldl_cons, List.drop_succ_cons, List.length_cons, Prod.mk.injEq, true_and]
      omega

/-- Restating `update_eq` on a whole reader record. -/
theorem TcReader.update_eq' [TakesMessage T M] (r : TcReader T M) :
    r.update = ⟨r.consumer.foldl take_message r.data, []⟩ := by
  cases r; exact TcReader.update_eq _ _

/-- Restating `update_limited_eq` on a whole reader record. -/
theorem TcReader.update_limited_eq' [TakesMessage T M] (r : TcReader T M) (limit : Nat) :
    r.update_limited limit =
      (⟨(r.consumer.take limit).foldl take_message r.data, r.consumer.drop limit⟩,
        min limit r.consumer.length) := by
  cases r; exact TcReader.update_limited_eq _ _ _

/-! ## The claims -/

/-- C1: for every initial state `t`, every sequence of messages `ms` published
after a reader was registered with `add_reader`, and no direct mutation of the
reader's local value, full synchronization (`update`, or `into_inner_fresh`)
leaves the local value equal to `t` with `take_message` folded over `ms` in
publish order, each message applied exactly once. -/
theorem C1_full_sync_folds_published [TakesMessage T M]
    (w0 w2 : TcWriter M) (t : T) (ms : List M)
    (hpub : w2.producer.log = (w0.add_reader).1.producer.log ++ ms) :
    (readerAt w2.producer (w0.add_reader).2 t).update.data = ms.foldl take_message t
    ∧ (readerAt w2.producer (w0.add_reader).2 t).into_inner_fresh
        = ms.foldl take_message t := by
  have hr : readerAt w2.producer (w0.add_reader).2 t = ⟨t, ms⟩ := by
    have hc : (w0.add_reader).2 = w0.producer.log.length := rfl
    have hl : (w0.add_reader).1.producer.log = w0.producer.log := rfl
    rw [hl] at hpub
    simp [readerAt, hpub, hc, List.drop_left]
  rw [hr]
  constructor
  · rw [TcReader.update_eq]
  · rw [TcReader.into_inner_fresh, TcReader.update_eq]

/-- Witness for C1 at a concrete input: capacity-10 writer, reader seeded with
`[5]`, messages `push 1`, `push 2`, `pop` published after registration. -/
theorem C1_witness :
    ((TcWriter.mk (Bus.mk 10 [Change.push 1, Change.push 2, Change.pop] [0])).producer.log
        = ((TcWriter.mk (Bus.mk 10 ([] : List Change) [])).add_reader).1.producer.log
            ++ [Change.push 1, Change.push 2, Change.pop])
    ∧ ((readerAt (TcWriter.mk (Bus.mk 10 [Change.push 1, Change.push 2, Change.pop] [0])).producer
          ((TcWriter.mk (Bus.mk 10 ([] : List Change) [])).add_reader).2
          ([5] : List Nat)).update.data
        = [Change.push 1, Change.push 2, Change.pop].foldl take_message [5]
      ∧ (readerAt (TcWriter.mk (Bus.mk 10 [Change.push 1, Change.push 2, Change.pop] [0])).producer
          ((TcWriter.mk (Bus.mk 10 ([] : List Change) [])).add_reader).2
          ([5] : List Nat)).into_inner_fresh
        = [Change.push 1, Change.push 2, Change.pop].foldl take_message [5]) :=
  ⟨by decide,
    C1_full_sync_folds_published
      (TcWriter.mk (Bus.mk 10 ([] : List Change) []))
      (TcWriter.mk (Bus.mk 10 [Change.push 1, Change.push 2, Change.pop] [0]))
      [5] [Change.push 1, Change.push 2, Change.pop] (by decide)⟩

/-- C2: no message published strictly before a reader's `add_reader` call is
ever applied to its local state.  With `a` published, then the reader
registered, then `b` published, every synchronization (`update`,
`update_limited`, `get_mut_fresh`, `into_inner_fresh`) applies the effect of
`b` only — the result is `take_message t b` (or `t` itself when the limit is
`0`) and never involves `a`. -/
theorem C2_reader_never_sees_pre_registration [TakesMessage T M]
    (w0 : TcWriter M) (a b : M) (t : T) (r : TcReader T M)
    (hr : r = readerAt ((((w0.apply_change a).add_reader).1.apply_change b).producer)
        ((w0.apply_change a).add_reader).2 t) :
    r.update.data = take_message t b
    ∧ r.into_inner_fresh = take_message t b
    ∧ (r.get_mut_fresh).2 = take_message t b
    ∧ (∀ n, (r.update_limited (n + 1)).1.data = take_message t b)
    ∧ (r.update_limited 0).1.data = t := by
  have hr' : r = ⟨t, [b]⟩ := by
    rw [hr]
    have hc : ((w0.apply_change a).add_reader).2
        = (w0.producer.log ++ [a]).length := rfl
    have hl : ((((w0.apply_change a).add_reader).1.apply_change b).producer).log
        = (w0.producer.log ++ [a]) ++ [b] := rfl
    simp only [readerAt, hc, hl, List.drop_left]
  subst hr'
  refine ⟨?_, ?_, ?_, ?_, ?_⟩
  · rw [TcReader.update_eq]; rfl
  · rw [TcReader.into_inner_fresh, TcReader.update_eq]; rfl
  · rw [TcReader.get_mut_fresh, TcReader.update_eq]; rfl
  · intro n
    rw [TcReader.update_limited_eq]
    simp
  · rw [TcReader.update_limited_eq]
    simp

/-- Witness for C2 at a concrete input: `pop` published before registration,
`push 9` after; the reader seeded with `[1, 2]` sees only the `push 9`. -/
theorem C2_witness :
    ((⟨[1, 2], [Change.push 9]⟩ : TcReader (List Nat) Change)
        = readerAt (((((TcWriter.mk (Bus.mk 10 ([] : List Change) [])).apply_change
              Change.pop).add_reader).1.apply_change (Change.push 9)).producer)
            (((TcWriter.mk (Bus.mk 10 ([] : List Change) [])).apply_change
              Change.pop).add_reader).2 [1, 2])
    ∧ ((⟨[1, 2], [Change.push 9]⟩ : TcReader (List Nat) Change).update.data
        = take_message [1, 2] (Change.push 9)
      ∧ (⟨[1, 2], [Change.push 9]⟩ : TcReader (List Nat) Change).into_inner_fresh
        = take_message [1, 2] (Change.push 9)
      ∧ ((⟨[1, 2], [Change.push 9]⟩ : TcReader (List Nat) Change).get_mut_fresh).2
        = take_message [1, 2] (Change.push 9)
      ∧ (∀ n, ((⟨[1, 2], [Change.push 9]⟩ : TcReader (List Nat) Change).update_limited
            (n + 1)).1.data = take_message [1, 2] (Change.push 9))
      ∧ ((⟨[1, 2], [Change.push 9]⟩ : TcReader (List Nat) Change).update_limited
            0).1.data = [1, 2]) :=
  ⟨by decide,
    C2_reader_never_sees_pre_registration
      (TcWriter.mk (Bus.mk 10 ([] : List Change) [])) Change.pop (Change.push 9)
      [1, 2] ⟨[1, 2], [Change.push 9]⟩ (by decide)⟩

/-- C3 counterexample: the claim says `update()` "returns the number of
messages applied", but `fn update(&mut self)` in `src/lib.rs` returns `()`.
Two concrete readers whose calls apply different numbers of messages (one
pending message versus two, with visibly different resulting states) get back
the identical unit return value, so `update`'s return value cannot be the
number of messages applied. -/
theorem C3_counterexample :
    ((⟨[], [Change.push 1]⟩ : TcReader (List Nat) Change).update_ret.2
        = (⟨[], [Change.push 1, Change.push 2]⟩ : TcReader (List Nat) Change).update_ret.2)
    ∧ (⟨[], [Change.push 1]⟩ : TcReader (List Nat) Change).consumer.length = 1
    ∧ (⟨[], [Change.push 1, Change.push 2]⟩ : TcReader (List Nat) Change).consumer.length = 2
    ∧ (⟨[], [Change.push 1]⟩ : TcReader (List Nat) Change).update.data
        ≠ (⟨[], [Change.push 1, Change.push 2]⟩ : TcReader (List Nat) Change).update.data := by
  refine ⟨rfl, rfl, rfl, ?_⟩
  decide

/-- C3 as amended: `update()` drains all currently-available messages, applies
each in order to the local `T` (a left fold over the pending messages), never
re-applies an already-consumed message (afterwards nothing is pending and a
second `update` changes nothing), and returns the unit value, not a count
(the count-returning variant is `update_limited`). -/
theorem C3_update_drains_applies_in_order [TakesMessage T M] (r : TcReader T M) :
    r.update.data = r.consumer.foldl take_message r.data
    ∧ r.update.consumer = []
    ∧ r.update.update = r.update
    ∧ r.update_ret = (r.update, ()) := by
  refine ⟨?_, ?_, ?_, rfl⟩
  · rw [TcReader.update_eq']
  · rw [TcReader.update_eq']
  · rw [TcReader.update_eq', TcReader.update_eq, List.foldl_nil]

/-- C4: constructing a channel with capacity zero fails with a `ConfigError`
at construction; any positive capacity yields an empty channel with that many
buffer slots and no registered cursors. -/
theorem C4_zero_capacity_config_error (M : Type) (cap : Nat) :
    TcWriter.new M 0 = .error ConfigError.zeroCapacity
    ∧ (0 < cap → ∃ w : TcWriter M, TcWriter.new M cap = .ok w
        ∧ w.producer.capacity = cap ∧ w.producer.log = [] ∧ w.producer.cursors = []) := by
  constructor
  · rfl
  · intro hcap
    refine ⟨⟨⟨cap, [], []⟩⟩, ?_, rfl, rfl, rfl⟩
    rw [TcWriter.new, Bus.new, if_neg (Nat.pos_iff_ne_zero.mp hcap)]
    rfl

/-- Witness for C4 at capacity `10`. -/
theorem C4_witness :
    TcWriter.new Change 0 = .error ConfigError.zeroCapacity
    ∧ (∃ w : TcWriter Change, TcWriter.new Change 10 = .ok w
        ∧ w.producer.capacity = 10 ∧ w.producer.log = [] ∧ w.producer.cursors = []) :=
  ⟨(C4_zero_capacity_config_error Change 10).1,
    (C4_zero_capacity_config_error Change 10).2 (by decide)⟩

/-- C5: `try_apply_change(m)` either delivers `m` into the buffer and returns
success (appending exactly `m` to the log, all else unchanged), or — exactly
when the buffer is full — returns the original message `m` back with the
channel state unchanged; the message is never silently lost. -/
theorem C5_try_apply_change_never_loses (w : TcWriter M) (m : M) :
    (w.producer.isFull = true ∧ w.try_apply_change m = (w, .error m))
    ∨ (w.producer.isFull = false
        ∧ (w.try_apply_change m).2 = .ok ()
        ∧ (w.try_apply_change m).1.producer.log = w.producer.log ++ [m]
        ∧ (w.try_apply_change m).1.producer.capacity = w.producer.capacity
        ∧ (w.try_apply_change m).1.producer.cursors = w.producer.cursors) := by
  cases hf : w.producer.isFull with
  | true =>
    left
    refine ⟨rfl, ?_⟩
    simp [TcWriter.try_apply_change, Bus.tryBroadcast, hf]
  | false =>
    right
    refine ⟨rfl, ?_, ?_, ?_, ?_⟩ <;>
      simp [TcWriter.try_apply_change, Bus.tryBroadcast, Bus.broadcast, hf]

/-- C6: `update_limited(n)` on a reader with `p` pending messages applies
exactly `min n p` messages — the first `n` pending ones, in order — returns
that count, and leaves the remaining `p - min n p` messages pending. -/
theorem C6_update_limited_applies_min [TakesMessage T M] (r : TcReader T M) (n : Nat) :
    (r.update_limited n).2 = min n r.consumer.length
    ∧ (r.update_limited n).1.data = (r.consumer.take n).foldl take_message r.data
    ∧ (r.update_limited n).1.consumer = r.consumer.drop n
    ∧ (r.update_limited n).1.consumer.length
        = r.consumer.length - min n r.consumer.length := by
  rw [TcReader.update_limited_eq' r n]
  refine ⟨rfl, rfl, rfl, ?_⟩
  simp only [List.length_drop]
  omega

/-- C7: any sequence of `update_limited` calls whose limits sum to at least
the pending count leaves the reader in the same state as a single `update()`
call. -/
theorem C7_limited_seq_eq_update [TakesMessage T M] (r : TcReader T M) (ns : List Nat)
    (h : r.consumer.length ≤ ns.sum) :
    r.update_limited_seq ns = r.update := by
  induction ns generalizing r with
  | nil =>
    obtain ⟨data, consumer⟩ := r
    simp only [List.sum_nil, Nat.le_zero, List.length_eq_zero] at h
    subst h
    rw [TcReader.update_limited_seq, List.foldl_nil, TcReader.update_eq, List.foldl_nil]
  | cons n ns ih =>
    have hstep : (TcReader.update_limited_seq r (n :: ns))
        = TcReader.update_limited_seq (r.update_limited n).1 ns := rfl
    rw [hstep, ih]
    · rw [TcReader.update_limited_eq', TcReader.update_eq, TcReader.update_eq',
        ← List.foldl_append, List.take_append_drop]
    · rw [TcReader.update_limited_eq']
      simp only [List.length_drop, List.sum_cons] at h ⊢
      omega

/-- Witness for C7: three pending messages fully drained by limits `2` then
`5`. -/
theorem C7_witness :
    (⟨[], [Change.push 1, Change.push 2, Change.push 3]⟩
        : TcReader (List Nat) Change).consumer.length ≤ [2, 5].sum
    ∧ (⟨[], [Change.push 1, Change.push 2, Change.push 3]⟩
        : TcReader (List Nat) Change).update_limited_seq [2, 5]
      = (⟨[], [Change.push 1, Change.push 2, Change.push 3]⟩
        : TcReader (List Nat) Change).update :=
  ⟨by decide,
    C7_limited_seq_eq_update
      ⟨[], [Change.push 1, Change.push 2, Change.push 3]⟩ [2, 5] (by decide)⟩

/-- C8: each fresh accessor is the composition of a full `update` with the
corresponding stale accessor: `get_mut_fresh` equals `update` followed by
`get_mut_stale`, and `into_inner_fresh` equals `update` followed by
`into_inner_stale`. -/
theorem C8_fresh_eq_update_then_stale [TakesMessage T M] (r : TcReader T M) :
    r.get_mut_fresh = r.update.get_mut_stale
    ∧ r.into_inner_fresh = r.update.into_inner_stale :=
  ⟨rfl, rfl⟩

/-- C9: stale access applies no pending messages and changes nothing: any
number of `get_mut_stale` calls leave the reader (data and pending cursor
alike) exactly as it stands, `into_inner_stale` returns the local value as
is, and the result is independent of how many messages are pending. -/
theorem C9_stale_access_is_identity (r : TcReader T M) (k : Nat)
    (t : T) (ms ms' : List M) :
    r.iterate_stale k = r
    ∧ (r.get_mut_stale).2 = r.data
    ∧ (r.get_mut_stale).1 = r
    ∧ r.into_inner_stale = r.data
    ∧ (TcReader.mk t ms).into_inner_stale = (TcReader.mk t ms').into_inner_stale
    ∧ ((TcReader.mk t ms).get_mut_stale).2 = ((TcReader.mk t ms').get_mut_stale).2 := by
  refine ⟨?_, rfl, rfl, rfl, rfl, rfl⟩
  induction k with
  | zero => rfl
  | succ k ih => exact ih

/-- C10: when `update_limited(n)` returns a count strictly below `n`, the
pending set was exhausted: the leftover cursor is empty, an immediately
following `update` or `update_limited(m)` applies zero messages and leaves
the state unchanged; and `update_limited 0` always returns `0` and changes
nothing. -/
theorem C10_short_count_exhausted [TakesMessage T M] (r : TcReader T M) (n : Nat)
    (h : (r.update_limited n).2 < n) :
    ((r.update_limited n).1).consumer = []
    ∧ ((r.update_limited n).1).update = (r.update_limited n).1
    ∧ (∀ m, ((r.update_limited n).1).update_limited m = ((r.update_limited n).1, 0))
    ∧ r.update_limited 0 = (r, 0) := by
  have heq := TcReader.update_limited_eq' r n
  rw [heq] at h
  have hlen : r.consumer.length < n := by
    rcases Nat.lt_or_ge r.consumer.length n with hlt | hge
    · exact hlt
    · exact absurd h (by simp [Nat.min_eq_left hge])
  have hdrop : r.consumer.drop n = [] := List.drop_eq_nil_of_le (Nat.le_of_lt hlen)
  refine ⟨?_, ?_, ?_, ?_⟩
  · rw [heq]; exact hdrop
  · rw [heq]; simp [hdrop, TcReader.update_eq]
  · intro m
    rw [heq]
    simp [hdrop, TcReader.update_limited_eq]
  · rw [TcReader.update_limited_eq']
    simp

/-- Witness for C10: one pending message, limit `3`, count `1 < 3`; the
follow-up `update` and `update_limited 4` do nothing. -/
theorem C10_witness :
    ((⟨[], [Change.push 7]⟩ : TcReader (List Nat) Change).update_limited 3).2 < 3
    ∧ (((⟨[], [Change.push 7]⟩ : TcReader (List Nat) Change).update_limited 3).1).update
        = ((⟨[], [Change.push 7]⟩ : TcReader (List Nat) Change).update_limited 3).1
    ∧ (((⟨[], [Change.push 7]⟩ : TcReader (List Nat) Change).update_limited 3).1).update_limited 4
        = (((⟨[], [Change.push 7]⟩ : TcReader (List Nat) Change).update_limited 3).1, 0) :=
  ⟨by decide,
    (C10_short_count_exhausted ⟨[], [Change.push 7]⟩ 3 (by decide)).2.1,
    (C10_short_count_exhausted ⟨[], [Change.push 7]⟩ 3 (by decide)).2.2.1 4⟩

end TrailingCell
